import Mathlib

/-!
Shallow embedding of `ksm/ksm.py` (the kilonova surrogate `Model` class) and
verification of the specification's claims about it.

Modelling conventions:
* numpy float arrays become `List ℝ`; 2-D arrays become `List (List ℝ)`.
* A Python call that can raise becomes `Except PyError _`; the error
  constructors mirror the Python exception classes actually reachable in the
  source (`ValueError`, `KeyError`, `AttributeError`, `TypeError`).
* `-np.inf` results of the likelihood/prior functions are modelled with
  `EReal` (`⊥` is `-inf`); all finite Python floats are modelled as reals.
* The CVAE decoder network and the pyphot filter objects are external
  black boxes (excluded from the spec's scope); they are modelled as opaque
  function-valued fields (`Model.decoder`, `Filter.get_flux`), exactly as the
  spec's §9 "narrow interfaces" prescribes.
* The `num_samples` latent draws of `torch.randn` in `predict_spectra` are
  the only nondeterminism in the source; the sampled latent vectors are made
  an explicit field `Model.latent_samples` (one entry per loop iteration of
  `for i in range(self.num_samples)`).
-/

namespace Ksm

/-- The Python exception classes reachable from the embedded code paths. -/
inductive PyError where
  | valueError (msg : String)
  | keyError (key : String)
  | attributeError (attr : String)
  | typeError (msg : String)
deriving DecidableEq

/-- pyphot `Filter` object (external collaborator, black box): its
`get_flux(wavelengths, spectrum)` photometric integral and `AB_zero_mag`
zero point, per the spec's `FilterCurve.integrate_flux` narrow interface. -/
structure Filter where
  get_flux : List ℝ → List ℝ → ℝ
  AB_zero_mag : ℝ

/-- `ksm.observations.Observations` (external collaborator type, consumed not
defined in `ksm.py`): parallel arrays of times, filter labels, observed
magnitudes, magnitude errors, the derived unique filter labels, upper-limit
indices, and a scalar distance, as described in the spec's data model. -/
structure Observations where
  times : List ℝ
  filters : List String
  data_magnitudes : List ℝ
  magnitude_errors : List ℝ
  filters_unique : List String
  upper_limit_indices : List ℕ
  distance : ℝ

/-- `self.num_samples = 10` (ksm.py line 35). -/
def num_samples : ℕ := 10

/-- The state of a constructed `Model` (ksm.py `__init__`).
`filter_library = none` models the attribute never being assigned when
`filter_library_path` is falsy (the `else` branch only sets
`filters_loaded = False`). -/
structure Model where
  input_size : ℕ
  model_wavelengths : List ℝ
  x_transforms : ℕ → ℝ × ℝ
  x_transform_rules : List Bool
  y_transforms : ℝ × ℝ × ℝ
  latent_samples : List (List ℝ)
  h_latent : latent_samples.length = num_samples
  decoder : List ℝ → List ℝ
  filter_library : Option (List (String × Filter))
  observations : Option Observations

/-- `self.filters_loaded` is `True` exactly on the `__init__` branch that
also populates `self.filter_library` (ksm.py lines 44-57). -/
def Model.filters_loaded (m : Model) : Bool := m.filter_library.isSome

/-- `np.unique`: the sorted list of distinct elements. -/
noncomputable def np_unique {α : Type} [LinearOrder α] [DecidableEq α]
    (xs : List α) : List α :=
  xs.toFinset.sort (· ≤ ·)

/-- `np.searchsorted(xs, t)` (side `left`) on a sorted array: the number of
elements strictly below `t`. -/
noncomputable def searchsorted (xs : List ℝ) (t : ℝ) : ℕ :=
  xs.countP (fun x => decide (x < t))

/-- The transform of input dimension `i` (ksm.py lines 132-139): linear
`(x - lo) / (hi - lo)` when the rule is false, `log10` of the same ratio
when the rule is true. -/
noncomputable def Model.nn_transform (m : Model) (i : ℕ) (rule : Bool) (x : ℝ) : ℝ :=
  if rule then
    Real.logb 10 ((x - (m.x_transforms i).1) / ((m.x_transforms i).2 - (m.x_transforms i).1))
  else
    (x - (m.x_transforms i).1) / ((m.x_transforms i).2 - (m.x_transforms i).1)

/-- One row of `physical_inputs_to_nn`: each column `i` is transformed with
its rule; `zip(range(len(param_matrix.T)), self.x_transform_rules)` pairs the
columns with the rules (columns beyond the rules list would be left as
uninitialized `np.empty_like` garbage in the source and are not produced
here; every claim concerns columns that do carry a rule). -/
noncomputable def Model.nn_row (m : Model) (row : List ℝ) : List ℝ :=
  List.zipWith (fun x p => m.nn_transform p.1 p.2 x) row m.x_transform_rules.enum

/-- `Model.physical_inputs_to_nn` (ksm.py lines 130-141): per-column
normalization of a (rows × dims) matrix. -/
noncomputable def Model.physical_inputs_to_nn (m : Model) (param_matrix : List (List ℝ)) :
    List (List ℝ) :=
  param_matrix.map m.nn_row

/-- Scalar case of `spectra_to_real_units` (ksm.py line 145):
`10 ** (y * (yt[2] - yt[1]) + yt[1]) - yt[0]` with
`y_transforms = (offset, lo, hi)`. -/
noncomputable def Model.spectra_to_real_units1 (m : Model) (y : ℝ) : ℝ :=
  (10 : ℝ) ^ (y * (m.y_transforms.2.2 - m.y_transforms.2.1) + m.y_transforms.2.1) -
    m.y_transforms.1

/-- `Model.spectra_to_real_units` applied elementwise to a matrix. -/
noncomputable def Model.spectra_to_real_units (m : Model) (y : List (List ℝ)) :
    List (List ℝ) :=
  y.map (fun row => row.map m.spectra_to_real_units1)

/-- Elementwise sum of two equal-length vectors. -/
def vec_add (a b : List ℝ) : List ℝ := List.zipWith (· + ·) a b

/-- Elementwise sum of a nonempty family of equal-length vectors (the
`torch` tensor accumulation over the sample axis). -/
def vec_sum : List (List ℝ) → List ℝ
  | [] => []
  | v :: [] => v
  | v :: rest => vec_add v (vec_sum rest)

/-- `np.mean(reconstructions, 2)`: elementwise mean over the
`num_samples` sample axis. -/
noncomputable def vec_mean (vs : List (List ℝ)) : List ℝ :=
  (vec_sum vs).map (fun s => s / (num_samples : ℝ))

/-- `Model.predict_spectra` (ksm.py lines 64-82): deduplicate the times,
build one input row `physical_parameters ++ [t]` per unique time, normalize,
decode each row once per latent sample `z` (the decoder input is `z`
concatenated with the normalized row), average the ensemble, and map the
result back to physical units.  Returns `(spectra, unique_times)`. -/
noncomputable def Model.predict_spectra (m : Model) (physical_parameters : List ℝ)
    (times : List ℝ) : List (List ℝ) × List ℝ :=
  let unique_times := np_unique times
  let all_data_input := unique_times.map (fun t => physical_parameters ++ [t])
  let nn_input := m.physical_inputs_to_nn all_data_input
  let reconstructions := nn_input.map
    (fun row => vec_mean (m.latent_samples.map (fun z => m.decoder (z ++ row))))
  (m.spectra_to_real_units reconstructions, unique_times)

/-- `np.where(filters == f)`: the indices at which `filters` holds `f`. -/
def filter_indices (filters : List String) (f : String) : List ℕ :=
  (filters.enum.filter (fun p => decide (p.2 = f))).map Prod.fst

/-- `mag = -2.5 * np.log10(flux) - ff.AB_zero_mag` for one spectrum
(ksm.py lines 104-105 / 119-120). -/
noncomputable def mag_of_spectrum (m : Model) (ff : Filter) (spec : List ℝ) : ℝ :=
  -2.5 * Real.logb 10 (ff.get_flux m.model_wavelengths spec) - ff.AB_zero_mag

/-- `magnitudes[filter_indices] = mag`: scatter the values into the array at
the given indices. -/
def scatter (mags : List ℝ) (idxs : List ℕ) (vals : List ℝ) : List ℝ :=
  (idxs.zip vals).foldl (fun acc p => acc.set p.1 p.2) mags

/-- The `for f in filters_unique:` loop of `predict_magnitudes`
(ksm.py lines 99-106 / 114-121).  Each iteration reads
`self.filter_library[f]` — an `AttributeError` if the library attribute was
never set, a `KeyError` if the key is missing — gathers the indices using
filter `f`, looks each one's time up in the sorted unique times, computes
the magnitudes and scatters them into the output array.
`(ts[j]?).getD 0` stands for `times[j]`; in the source `j` is always in
range because `np.where` only produces valid indices. -/
noncomputable def mag_loop (m : Model) (spectra_at_distance : List (List ℝ))
    (unique_times : List ℝ) (ts : List ℝ) (fs : List String) :
    List String → List ℝ → Except PyError (List ℝ)
  | [], magnitudes => .ok magnitudes
  | f :: rest, magnitudes =>
    match m.filter_library with
    | none => .error (.attributeError "filter_library")
    | some lib =>
      match lib.lookup f with
      | none => .error (.keyError f)
      | some ff =>
        let idxs := filter_indices fs f
        let vals := idxs.map (fun j =>
          mag_of_spectrum m ff
            ((spectra_at_distance[searchsorted unique_times ((ts[j]?).getD 0)]?).getD []))
        mag_loop m spectra_at_distance unique_times ts fs rest (scatter magnitudes idxs vals)

/-- The shared body of both branches of `predict_magnitudes`: decode
spectra, apply the inverse-square law `/(4 π d²)`, and run the per-filter
loop.  `np.empty_like(times)` is modelled as a zero-filled list of the same
length: its initial contents are never read, because every index is
overwritten when `filters_unique` covers the filters (proved below). -/
noncomputable def Model.magnitudes_from (m : Model) (physical_parameters : List ℝ)
    (ts : List ℝ) (fs : List String) (distance : ℝ) (filters_unique : List String) :
    Except PyError (List ℝ) :=
  let p := m.predict_spectra physical_parameters ts
  let spectra_at_distance :=
    p.1.map (fun s => s.map (fun x => x / (4 * Real.pi * distance ^ 2)))
  mag_loop m spectra_at_distance p.2 ts fs filters_unique (List.replicate ts.length 0)

/-- `Model.predict_magnitudes` (ksm.py lines 84-128).  If an `Observations`
object is bound, its times/filters/distance are used and the explicit
arguments are ignored; otherwise the explicit arguments are used; if neither
is available the source raises
`ValueError("Neither Observations object nor times post merger to predict at specified.")`.
A call with `times` supplied but `filters` or `distance` missing fails inside
the arithmetic of the explicit branch (`distance ** 2` on `None`,
`np.unique(None)` lookups); that failure mode is modelled as a single
`typeError` since no claim depends on its precise form, only on it not being
the `ValueError` above. -/
noncomputable def Model.predict_magnitudes (m : Model) (physical_parameters : List ℝ)
    (times : Option (List ℝ)) (filters : Option (List String)) (distance : Option ℝ) :
    Except PyError (List ℝ) :=
  match m.observations with
  | some obs =>
    m.magnitudes_from physical_parameters obs.times obs.filters obs.distance
      obs.filters_unique
  | none =>
    match times with
    | some ts =>
      match filters, distance with
      | some fs, some d => m.magnitudes_from physical_parameters ts fs d (np_unique fs)
      | _, _ => .error (.typeError "unsupported operand type")
    | none =>
      .error (.valueError
        "Neither Observations object nor times post merger to predict at specified.")

/-- `-0.5 * np.sum((preds - data) ** 2 / (errs + 1) ** 2)`
(ksm.py line 162 / 206). -/
noncomputable def gaussian_loglike (preds data errs : List ℝ) : ℝ :=
  -0.5 * (List.zipWith (fun r e => r ^ 2 / (e + 1) ^ 2)
    (List.zipWith (fun p d => p - d) preds data) errs).sum

/-- `Model.compute_likelihood_dynesty` (ksm.py lines 147-163): predict the
magnitudes from the bound observations, return `-inf` as soon as some
upper-limit index has predicted magnitude below the observed limit, else the
Gaussian log-likelihood with unit-inflated errors.  Accessing
`self.observations.times` with no observations bound raises an
`AttributeError` in the source. -/
noncomputable def Model.compute_likelihood_dynesty (m : Model) (physical_params : List ℝ) :
    Except PyError EReal :=
  match m.observations with
  | none => .error (.attributeError "times")
  | some obs =>
    match m.predict_magnitudes physical_params (some obs.times) (some obs.filters)
        (some obs.distance) with
    | .error e => .error e
    | .ok preds =>
      if ∃ i ∈ obs.upper_limit_indices,
          (preds[i]?).getD 0 < (obs.data_magnitudes[i]?).getD 0 then
        .ok ⊥
      else
        .ok ((gaussian_loglike preds obs.data_magnitudes obs.magnitude_errors : ℝ) : EReal)

/-- `Model.prior_transform_dynesty` (ksm.py lines 165-174):
`param[i] = u[i] * (lo_i - hi_i) + hi_i`. -/
noncomputable def Model.prior_transform_dynesty (m : Model) (uniform_params : List ℝ) :
    List ℝ :=
  uniform_params.enum.map (fun p =>
    p.2 * ((m.x_transforms p.1).1 - (m.x_transforms p.1).2) + (m.x_transforms p.1).2)

/-- The `for i, param in enumerate(physical_params):` loop of
`log_prior_emcee`: return `-inf` at the first parameter outside its strict
`(lo, hi)` range, `0.0` if the loop completes. -/
noncomputable def log_prior_aux (m : Model) : List (ℕ × ℝ) → EReal
  | [] => ((0 : ℝ) : EReal)
  | p :: rest =>
    if (m.x_transforms p.1).1 < p.2 ∧ p.2 < (m.x_transforms p.1).2 then
      log_prior_aux m rest
    else ⊥

/-- `Model.log_prior_emcee` (ksm.py lines 176-187). -/
noncomputable def Model.log_prior_emcee (m : Model) (physical_params : List ℝ) : EReal :=
  log_prior_aux m physical_params.enum

/-- `np.isfinite` on the values the prior can take. -/
abbrev np_isfinite (x : EReal) : Prop := x ≠ ⊥ ∧ x ≠ ⊤

/-- `Model.log_probability_emcee` (ksm.py lines 189-207): compute the prior,
return `-inf` immediately if it is not finite, otherwise run the same body
as `compute_likelihood_dynesty` (the source duplicates it verbatim). -/
noncomputable def Model.log_probability_emcee (m : Model) (physical_params : List ℝ) :
    Except PyError EReal :=
  if ¬ np_isfinite (m.log_prior_emcee physical_params) then .ok ⊥
  else
    match m.observations with
    | none => .error (.attributeError "times")
    | some obs =>
      match m.predict_magnitudes physical_params (some obs.times) (some obs.filters)
          (some obs.distance) with
      | .error e => .error e
      | .ok preds =>
        if ∃ i ∈ obs.upper_limit_indices,
            (preds[i]?).getD 0 < (obs.data_magnitudes[i]?).getD 0 then
          .ok ⊥
        else
          .ok ((gaussian_loglike preds obs.data_magnitudes obs.magnitude_errors : ℝ) : EReal)

/-- The composition of the pipeline for a single time `t`: normalize the row
`physical_parameters ++ [t]`, decode it under every latent sample, average,
convert to physical units.  This is "the decoded spectrum for time `t`"; the
alignment theorem shows each output magnitude is this function of its own
time and filter alone. -/
noncomputable def Model.decode_one (m : Model) (physical_parameters : List ℝ) (t : ℝ) :
    List ℝ :=
  (vec_mean (m.latent_samples.map
    (fun z => m.decoder (z ++ m.nn_row (physical_parameters ++ [t]))))).map
    m.spectra_to_real_units1

/-! ### Helper lemmas -/

theorem np_unique_sorted (xs : List ℝ) : (np_unique xs).Sorted (· < ·) :=
  Finset.sort_sorted_lt _

theorem mem_np_unique {xs : List ℝ} {t : ℝ} : t ∈ np_unique xs ↔ t ∈ xs := by
  simp [np_unique, Finset.mem_sort, List.mem_toFinset]

theorem np_unique_nodup (xs : List ℝ) : (np_unique xs).Nodup :=
  Finset.sort_nodup _ _

theorem mem_np_unique_str {xs : List String} {t : String} : t ∈ np_unique xs ↔ t ∈ xs := by
  simp [np_unique, Finset.mem_sort, List.mem_toFinset]

theorem np_unique_ne_nil {xs : List String} (h : xs ≠ []) : np_unique xs ≠ [] := by
  rcases xs with _ | ⟨x, rest⟩
  · exact absurd rfl h
  · intro hn
    have : x ∈ np_unique (x :: rest) := mem_np_unique_str.2 (List.mem_cons_self x rest)
    rw [hn] at this
    exact List.not_mem_nil x this

/-- On a strictly sorted list containing `t`, `searchsorted` returns the
index of `t`. -/
theorem searchsorted_mem {xs : List ℝ} {t : ℝ} (hs : xs.Sorted (· < ·)) (ht : t ∈ xs) :
    xs[searchsorted xs t]? = some t := by
  induction xs with
  | nil => cases ht
  | cons x rest ih =>
    rcases List.sorted_cons.1 hs with ⟨hx, hrest⟩
    rcases List.mem_cons.1 ht with rfl | hmem
    · have hx0 : ¬ (t < t) := lt_irrefl t
      have hcount : List.countP (fun y => decide (y < t)) rest = 0 := by
        rw [List.countP_eq_zero]
        intro a ha
        simp only [decide_eq_true_eq]
        exact fun hlt => absurd (hx a ha) (not_lt.2 hlt.le)
      simp [searchsorted, List.countP_cons, hx0, hcount]
    · have hxt : x < t := hx t hmem
      have : searchsorted (x :: rest) t = searchsorted rest t + 1 := by
        simp [searchsorted, List.countP_cons, hxt]
      rw [this, List.getElem?_cons_succ]
      exact ih hrest hmem

theorem scatter_nil (mags : List ℝ) (vals : List ℝ) : scatter mags [] vals = mags := rfl

theorem scatter_cons (mags : List ℝ) (i : ℕ) (idxs : List ℕ) (v : ℕ → ℝ) :
    scatter mags (i :: idxs) ((i :: idxs).map v) =
      scatter (mags.set i (v i)) idxs (idxs.map v) := rfl

theorem scatter_length (mags : List ℝ) (idxs : List ℕ) (vals : List ℝ) :
    (scatter mags idxs vals).length = mags.length := by
  unfold scatter
  generalize idxs.zip vals = l
  induction l generalizing mags with
  | nil => rfl
  | cons p rest ih => simp [List.foldl_cons, ih, List.length_set]

theorem scatter_getElem?_not_mem (mags : List ℝ) (idxs : List ℕ) (v : ℕ → ℝ) (j : ℕ)
    (hj : j ∉ idxs) : (scatter mags idxs (idxs.map v))[j]? = mags[j]? := by
  induction idxs generalizing mags with
  | nil => rfl
  | cons i rest ih =>
    rw [scatter_cons]
    have hji : j ≠ i := fun h => hj (h ▸ List.mem_cons_self i rest)
    have hjr : j ∉ rest := fun h => hj (List.mem_cons_of_mem i h)
    rw [ih _ hjr, List.getElem?_set, if_neg (fun h => hji h.symm)]

theorem scatter_getElem?_mem (mags : List ℝ) (idxs : List ℕ) (v : ℕ → ℝ) (j : ℕ)
    (hj : j ∈ idxs) (hlt : j < mags.length) :
    (scatter mags idxs (idxs.map v))[j]? = some (v j) := by
  induction idxs generalizing mags with
  | nil => cases hj
  | cons i rest ih =>
    rw [scatter_cons]
    by_cases hr : j ∈ rest
    · exact ih _ hr (by rw [List.length_set]; exact hlt)
    · have hji : j = i := by
        rcases List.mem_cons.1 hj with h | h
        · exact h
        · exact absurd h hr
      subst hji
      rw [scatter_getElem?_not_mem _ _ _ _ hr, List.getElem?_set, if_pos rfl, if_pos hlt]

theorem mem_filter_indices {fs : List String} {f : String} {j : ℕ} :
    j ∈ filter_indices fs f ↔ fs[j]? = some f := by
  simp only [filter_indices, List.mem_map, List.mem_filter, decide_eq_true_eq]
  constructor
  · rintro ⟨⟨i, g⟩, ⟨hmem, hg⟩, rfl⟩
    have hg2 : g = f := hg
    subst hg2
    exact List.mem_enum_iff_getElem?.1 hmem
  · intro h
    exact ⟨(j, f), ⟨List.mem_enum_iff_getElem?.2 h, rfl⟩, rfl⟩

theorem getElem?_lt_length {α : Type} {l : List α} {j : ℕ} {a : α}
    (h : l[j]? = some a) : j < l.length := by
  rcases List.getElem?_eq_some_iff.1 h with ⟨hj, _⟩
  exact hj

theorem mem_of_getElem?_some {α : Type} {l : List α} {j : ℕ} {a : α}
    (h : l[j]? = some a) : a ∈ l := by
  rcases List.getElem?_eq_some_iff.1 h with ⟨hj, rfl⟩
  exact List.getElem_mem hj

theorem predict_spectra_snd (m : Model) (pp ts : List ℝ) :
    (m.predict_spectra pp ts).2 = np_unique ts := rfl

theorem predict_spectra_fst (m : Model) (pp ts : List ℝ) :
    (m.predict_spectra pp ts).1 = (np_unique ts).map (m.decode_one pp) := by
  simp only [Model.predict_spectra, Model.spectra_to_real_units,
    Model.physical_inputs_to_nn, Model.decode_one, List.map_map]
  rfl

/-- Full description of the `for f in filters_unique:` loop when it returns
normally: the output has the length of the running array, indices whose
filter is not in the processed list keep their previous value, and indices
whose filter is in the processed list hold the magnitude computed from their
own time's spectrum row and their own filter's curve. -/
theorem mag_loop_spec (m : Model) (lib : List (String × Ksm.Filter))
    (hlib : m.filter_library = some lib)
    (sad : List (List ℝ)) (ut ts : List ℝ) (fs : List String) :
    ∀ (fus : List String) (mags out : List ℝ),
      mag_loop m sad ut ts fs fus mags = .ok out →
      out.length = mags.length ∧
      (∀ j : ℕ, (¬ ∃ f ∈ fus, fs[j]? = some f) → out[j]? = mags[j]?) ∧
      (∀ (j : ℕ) (f : String), fs[j]? = some f → f ∈ fus → j < mags.length →
        out[j]? = (lib.lookup f).map (fun ff =>
          mag_of_spectrum m ff ((sad[searchsorted ut ((ts[j]?).getD 0)]?).getD []))) := by
  intro fus
  induction fus with
  | nil =>
    intro mags out h
    have hout : out = mags := by
      simpa [mag_loop] using h.symm
    subst hout
    exact ⟨rfl, fun j _ => rfl, fun j f hf hmem _ => absurd hmem (List.not_mem_nil f)⟩
  | cons f0 rest ih =>
    intro mags out h
    simp only [mag_loop, hlib] at h
    rcases hlk : lib.lookup f0 with _ | ff
    · rw [hlk] at h
      cases h
    · rw [hlk] at h
      obtain ⟨hlen, huntouched, hdone⟩ := ih _ _ h
      refine ⟨hlen.trans (scatter_length _ _ _), ?_, ?_⟩
      · intro j hj
        have hjrest : ¬ ∃ f ∈ rest, fs[j]? = some f := by
          rintro ⟨f, hfr, heq⟩
          exact hj ⟨f, List.mem_cons_of_mem f0 hfr, heq⟩
        have hjidx : j ∉ filter_indices fs f0 := by
          intro hji
          exact hj ⟨f0, List.mem_cons_self f0 rest, mem_filter_indices.1 hji⟩
        rw [huntouched j hjrest, scatter_getElem?_not_mem _ _ _ _ hjidx]
      · intro j f hf hmem hjlt
        by_cases hr : f ∈ rest
        · exact hdone j f hf hr (by rw [scatter_length]; exact hjlt)
        · have hf0 : f = f0 := by
            rcases List.mem_cons.1 hmem with h' | h'
            · exact h'
            · exact absurd h' hr
          subst hf0
          have hnot : ¬ ∃ f' ∈ rest, fs[j]? = some f' := by
            rintro ⟨f', hfr, heq⟩
            rw [hf] at heq
            cases heq
            exact hr hfr
          rw [huntouched j hnot]
          have hjidx : j ∈ filter_indices fs f := mem_filter_indices.2 hf
          rw [scatter_getElem?_mem mags _ _ j hjidx hjlt, hlk]
          rfl

/-- `magnitudes_from`, on a normal return with the filters covered by
`filters_unique`: the output is aligned with the inputs, and the magnitude at
index `j` is a function of that index's own time and filter only (the
decoded spectrum for `ts[j]`, distance-attenuated, integrated through the
filter named `fs[j]`). -/
theorem magnitudes_from_spec (m : Model) (lib : List (String × Ksm.Filter))
    (pp ts : List ℝ) (fs : List String) (d : ℝ) (fus : List String) (out : List ℝ)
    (hlib : m.filter_library = some lib)
    (hcov : ∀ f ∈ fs, f ∈ fus)
    (hlen : fs.length = ts.length)
    (hok : m.magnitudes_from pp ts fs d fus = .ok out) :
    out.length = ts.length ∧
    ∀ (j : ℕ) (t : ℝ) (f : String), ts[j]? = some t → fs[j]? = some f →
      out[j]? = (lib.lookup f).map (fun ff =>
        mag_of_spectrum m ff
          ((m.decode_one pp t).map (fun x => x / (4 * Real.pi * d ^ 2)))) := by
  have hsad : (m.predict_spectra pp ts).1.map
      (fun s => s.map (fun x => x / (4 * Real.pi * d ^ 2))) =
      (np_unique ts).map (fun t =>
        (m.decode_one pp t).map (fun x => x / (4 * Real.pi * d ^ 2))) := by
    rw [predict_spectra_fst, List.map_map]
    rfl
  have hok2 : mag_loop m
      ((m.predict_spectra pp ts).1.map (fun s => s.map (fun x => x / (4 * Real.pi * d ^ 2))))
      (m.predict_spectra pp ts).2 ts fs fus (List.replicate ts.length 0) = .ok out := hok
  rw [predict_spectra_snd] at hok2
  rw [hsad] at hok2
  obtain ⟨hlen', huntouched, hdone⟩ :=
    mag_loop_spec m lib hlib _ (np_unique ts) ts fs fus _ _ hok2
  constructor
  · rw [hlen', List.length_replicate]
  · intro j t f hjt hjf
    have hmem : f ∈ fus := hcov f (mem_of_getElem?_some hjf)
    have hjlt : j < (List.replicate ts.length (0 : ℝ)).length := by
      rw [List.length_replicate, ← hlen]
      exact getElem?_lt_length hjf
    have := hdone j f hjf hmem hjlt
    rw [this]
    have htd : (ts[j]?).getD 0 = t := by rw [hjt]; rfl
    rw [htd]
    have htmem : t ∈ np_unique ts := mem_np_unique.2 (mem_of_getElem?_some hjt)
    have hut : (np_unique ts)[searchsorted (np_unique ts) t]? = some t :=
      searchsorted_mem (np_unique_sorted ts) htmem
    rw [List.getElem?_map, hut]
    rfl

/-- With an empty `filters_unique` the per-filter loop never runs: the call
returns the untouched output array (the source would return `np.empty_like`
garbage) and in particular does not fail. -/
theorem magnitudes_from_nil_fus (m : Model) (pp ts : List ℝ) (fs : List String) (d : ℝ)
    (fus : List String) (hfus : fus = []) :
    m.magnitudes_from pp ts fs d fus = .ok (List.replicate ts.length 0) := by
  subst hfus
  rfl

/-- With the `filter_library` attribute never set, the first iteration of
the per-filter loop fails with the `AttributeError` for it. -/
theorem magnitudes_from_no_lib (m : Model) (hnl : m.filter_library = none)
    (pp ts : List ℝ) (fs : List String) (d : ℝ) (f : String) (rest fus : List String)
    (hfus : fus = f :: rest) :
    m.magnitudes_from pp ts fs d fus = .error (.attributeError "filter_library") := by
  subst hfus
  unfold Model.magnitudes_from
  simp only [mag_loop, hnl]

/-! ### Claim theorems -/

/-- C5: for every finite real `y`, with `y_transforms = (offset, lo, hi)`,
`spectra_to_real_units(y)` equals `10^(y*(hi - lo) + lo) - offset`, and
equivalently `log10(spectra_to_real_units(y) + offset) = y*(hi - lo) + lo`. -/
theorem C5_spectra_to_real_units_inverse (m : Model) (y : ℝ) :
    m.spectra_to_real_units1 y =
      (10 : ℝ) ^ (y * (m.y_transforms.2.2 - m.y_transforms.2.1) + m.y_transforms.2.1) -
        m.y_transforms.1 ∧
    Real.logb 10 (m.spectra_to_real_units1 y + m.y_transforms.1) =
      y * (m.y_transforms.2.2 - m.y_transforms.2.1) + m.y_transforms.2.1 := by
  refine ⟨rfl, ?_⟩
  unfold Model.spectra_to_real_units1
  rw [sub_add_cancel]
  exact Real.logb_rpow (by norm_num) (by norm_num)

/-- C6: `physical_inputs_to_nn` applies, per the stored boolean rule of each
dimension, the linear map `(x - lo)/(hi - lo)` (rule false) or the
logarithmic map `log10((x - lo)/(hi - lo))` (rule true); for a linear
dimension with `lo < hi` the map is strictly monotone increasing with value
`0` at `x = lo` and `1` at `x = hi`. -/
theorem C6_normalizer (m : Model) (pm : List (List ℝ)) (r i : ℕ) (row : List ℝ)
    (x : ℝ) (rule : Bool)
    (hrow : pm[r]? = some row) (hx : row[i]? = some x)
    (hrule : m.x_transform_rules[i]? = some rule) :
    ((m.physical_inputs_to_nn pm)[r]?.bind (fun nrow => nrow[i]?) =
      some (m.nn_transform i rule x)) ∧
    (m.nn_transform i rule x =
      if rule then
        Real.logb 10 ((x - (m.x_transforms i).1) /
          ((m.x_transforms i).2 - (m.x_transforms i).1))
      else (x - (m.x_transforms i).1) / ((m.x_transforms i).2 - (m.x_transforms i).1)) ∧
    ((m.x_transforms i).1 < (m.x_transforms i).2 →
      StrictMono (fun z => m.nn_transform i false z) ∧
      m.nn_transform i false (m.x_transforms i).1 = 0 ∧
      m.nn_transform i false (m.x_transforms i).2 = 1) := by
  refine ⟨?_, rfl, ?_⟩
  · simp only [Model.physical_inputs_to_nn, List.getElem?_map, hrow, Option.map_some',
      Option.some_bind, Model.nn_row, List.getElem?_zipWith, hx, List.getElem?_enum, hrule]
  · intro hlo
    have hpos : (0 : ℝ) < (m.x_transforms i).2 - (m.x_transforms i).1 := sub_pos.2 hlo
    refine ⟨?_, ?_, ?_⟩
    · intro a b hab
      simp only [Model.nn_transform, Bool.false_eq_true, if_false]
      exact div_lt_div_of_pos_right (sub_lt_sub_right hab _) hpos
    · simp [Model.nn_transform]
    · simp only [Model.nn_transform, Bool.false_eq_true, if_false]
      exact div_self hpos.ne'

/-- C7: `predict_spectra` decodes exactly one spectrum row per unique time
(`len(unique(times))` rows), and the returned `unique_times` is sorted
strictly ascending (hence duplicate-free) with exactly the members of
`times`. -/
theorem C7_predict_spectra_dedup (m : Model) (pp times : List ℝ) :
    ((m.predict_spectra pp times).1).length = (np_unique times).length ∧
    (m.predict_spectra pp times).2 = np_unique times ∧
    ((m.predict_spectra pp times).2).Sorted (· < ·) ∧
    ((m.predict_spectra pp times).2).Nodup ∧
    (∀ t, t ∈ (m.predict_spectra pp times).2 ↔ t ∈ times) := by
  refine ⟨?_, rfl, np_unique_sorted times, np_unique_nodup times, fun t => mem_np_unique⟩
  rw [predict_spectra_fst, List.length_map]

/-- C8: `prior_transform_dynesty` maps component `i` of the unit cube to
`u_i * (lo_i - hi_i) + hi_i`, so `u_i = 0` lands on `hi_i` and `u_i = 1` on
`lo_i` — the reversed polarity relative to the normalizer convention. -/
theorem C8_prior_transform (m : Model) (u : List ℝ) (i : ℕ) (ui : ℝ)
    (hu : u[i]? = some ui) :
    (m.prior_transform_dynesty u)[i]? =
      some (ui * ((m.x_transforms i).1 - (m.x_transforms i).2) + (m.x_transforms i).2) ∧
    (ui = 0 → (m.prior_transform_dynesty u)[i]? = some (m.x_transforms i).2) ∧
    (ui = 1 → (m.prior_transform_dynesty u)[i]? = some (m.x_transforms i).1) := by
  have hbase : (m.prior_transform_dynesty u)[i]? =
      some (ui * ((m.x_transforms i).1 - (m.x_transforms i).2) + (m.x_transforms i).2) := by
    simp only [Model.prior_transform_dynesty, List.getElem?_map, List.getElem?_enum, hu]
    rfl
  refine ⟨hbase, ?_, ?_⟩
  · rintro rfl
    rw [hbase]
    norm_num
  · rintro rfl
    rw [hbase]
    congr 1
    ring

/-- The per-filter loop can fail with an attribute or key error, but never
with the missing-inputs `ValueError`. -/
theorem mag_loop_no_value_error (m : Model) (sad : List (List ℝ)) (ut ts : List ℝ)
    (fs : List String) :
    ∀ (fus : List String) (mags : List ℝ) (s : String),
      mag_loop m sad ut ts fs fus mags ≠ .error (.valueError s) := by
  intro fus
  induction fus with
  | nil =>
    intro mags s h
    simp [mag_loop] at h
  | cons f rest ih =>
    intro mags s h
    simp only [mag_loop] at h
    rcases hfl : m.filter_library with _ | lib
    · simp only [hfl] at h
      exact PyError.noConfusion (Except.error.inj h)
    · simp only [hfl] at h
      rcases hlk : lib.lookup f with _ | ff
      · simp only [hlk] at h
        exact PyError.noConfusion (Except.error.inj h)
      · simp only [hlk] at h
        exact ih _ s h

/-- C1: with an `Observations` object bound and the magnitude prediction
returning normally, the log-likelihood is exactly `-inf` as soon as any
upper-limit index has predicted magnitude strictly below the observed limit,
and otherwise equals the Gaussian log-likelihood
`-0.5 * sum((pred - obs)^2 / (err + 1)^2)` with unit-inflated errors. -/
theorem C1_upper_limit_veto (m : Model) (obs : Observations) (pp preds : List ℝ)
    (hobs : m.observations = some obs)
    (hok : m.predict_magnitudes pp (some obs.times) (some obs.filters) (some obs.distance)
      = .ok preds) :
    ((∃ i ∈ obs.upper_limit_indices,
        (preds[i]?).getD 0 < (obs.data_magnitudes[i]?).getD 0) →
      m.compute_likelihood_dynesty pp = .ok ⊥) ∧
    ((¬ ∃ i ∈ obs.upper_limit_indices,
        (preds[i]?).getD 0 < (obs.data_magnitudes[i]?).getD 0) →
      m.compute_likelihood_dynesty pp =
        .ok (((-0.5 * (List.zipWith (fun r e => r ^ 2 / (e + 1) ^ 2)
          (List.zipWith (fun p d => p - d) preds obs.data_magnitudes)
          obs.magnitude_errors).sum : ℝ)) : EReal)) := by
  have hred : m.compute_likelihood_dynesty pp =
      if ∃ i ∈ obs.upper_limit_indices,
          (preds[i]?).getD 0 < (obs.data_magnitudes[i]?).getD 0 then
        .ok ⊥
      else
        .ok ((gaussian_loglike preds obs.data_magnitudes obs.magnitude_errors : ℝ) : EReal) := by
    unfold Model.compute_likelihood_dynesty
    rw [hobs]
    show (match m.predict_magnitudes pp (some obs.times) (some obs.filters)
        (some obs.distance) with
      | .error e => Except.error e
      | .ok preds =>
        if ∃ i ∈ obs.upper_limit_indices,
            (preds[i]?).getD 0 < (obs.data_magnitudes[i]?).getD 0 then
          .ok ⊥
        else
          .ok ((gaussian_loglike preds obs.data_magnitudes obs.magnitude_errors : ℝ) : EReal)) = _
    rw [hok]
  constructor
  · intro hveto
    rw [hred, if_pos hveto]
  · intro hveto
    rw [hred, if_neg hveto]
    rfl

/-- C3: with neither an `Observations` object bound nor explicit times
supplied, `predict_magnitudes` fails with the missing-inputs error (the
source's `ValueError`, the spec's "ConfigurationError"); whenever at least
one input source is available, that error is never raised. -/
theorem C3_missing_inputs (m : Model) (pp : List ℝ) :
    (m.observations = none →
      ∀ (filters : Option (List String)) (distance : Option ℝ),
        m.predict_magnitudes pp none filters distance =
          .error (.valueError
            "Neither Observations object nor times post merger to predict at specified.")) ∧
    (∀ (times : Option (List ℝ)) (filters : Option (List String)) (distance : Option ℝ)
        (s : String), (m.observations ≠ none ∨ times ≠ none) →
      m.predict_magnitudes pp times filters distance ≠ .error (.valueError s)) := by
  constructor
  · intro hobs filters distance
    simp [Model.predict_magnitudes, hobs]
  · intro times filters distance s hsrc h
    rcases hobs : m.observations with _ | obs
    · rcases times with _ | ts
      · rcases hsrc with h1 | h2
        · exact h1 hobs
        · exact h2 rfl
      · simp only [Model.predict_magnitudes, hobs] at h
        rcases filters with _ | fs <;> rcases distance with _ | d
        · exact PyError.noConfusion (Except.error.inj h)
        · exact PyError.noConfusion (Except.error.inj h)
        · exact PyError.noConfusion (Except.error.inj h)
        · exact mag_loop_no_value_error m _ _ ts fs (np_unique fs) _ s h
    · simp only [Model.predict_magnitudes, hobs] at h
      exact mag_loop_no_value_error m _ _ obs.times obs.filters obs.filters_unique _ s h

/-- Every value `log_prior_emcee` can produce: `0.0` or `-inf`. -/
theorem log_prior_aux_cases (m : Model) :
    ∀ l : List (ℕ × ℝ), log_prior_aux m l = ((0 : ℝ) : EReal) ∨ log_prior_aux m l = ⊥ := by
  intro l
  induction l with
  | nil => exact Or.inl rfl
  | cons p rest ih =>
    by_cases hp : (m.x_transforms p.1).1 < p.2 ∧ p.2 < (m.x_transforms p.1).2
    · rw [log_prior_aux, if_pos hp]
      exact ih
    · rw [log_prior_aux, if_neg hp]
      exact Or.inr rfl

/-- C9: `log_probability_emcee` short-circuits to `-inf` whenever the prior
is `-inf` — even with no observations bound, i.e. without touching the
prediction pipeline at all, while `compute_likelihood_dynesty` would fail
there — and whenever the prior is finite it returns exactly
`compute_likelihood_dynesty`. -/
theorem C9_log_probability_composition (m : Model) (pp : List ℝ) :
    (m.log_prior_emcee pp = ⊥ → m.log_probability_emcee pp = .ok ⊥) ∧
    (m.log_prior_emcee pp = ⊥ → m.observations = none →
      m.log_probability_emcee pp = .ok ⊥ ∧
      m.compute_likelihood_dynesty pp = .error (.attributeError "times")) ∧
    (m.log_prior_emcee pp ≠ ⊥ →
      m.log_probability_emcee pp = m.compute_likelihood_dynesty pp) := by
  have hshort : m.log_prior_emcee pp = ⊥ → m.log_probability_emcee pp = .ok ⊥ := by
    intro h
    unfold Model.log_probability_emcee
    rw [if_pos (fun hfin => absurd h hfin.1)]
  refine ⟨hshort, ?_, ?_⟩
  · intro h hobs
    refine ⟨hshort h, ?_⟩
    unfold Model.compute_likelihood_dynesty
    rw [hobs]
  · intro h
    have h0 : np_isfinite (m.log_prior_emcee pp) := by
      rcases log_prior_aux_cases m pp.enum with h' | h'
      · have h0' : m.log_prior_emcee pp = ((0 : ℝ) : EReal) := h'
        rw [h0']
        exact ⟨EReal.coe_ne_bot 0, EReal.coe_ne_top 0⟩
      · exact absurd h' h
    unfold Model.log_probability_emcee Model.compute_likelihood_dynesty
    rw [if_neg (not_not_intro h0)]

/-- C10: with an `Observations` object bound, `predict_magnitudes` ignores
its explicit `times`/`filters`/`distance` arguments entirely — any two
argument choices give the same result — and that result is the one computed
from the bound observations' times, filters and distance. -/
theorem C10_bound_observations_win (m : Model) (obs : Observations) (pp : List ℝ)
    (hobs : m.observations = some obs) :
    (∀ (t1 t2 : Option (List ℝ)) (f1 f2 : Option (List String)) (d1 d2 : Option ℝ),
      m.predict_magnitudes pp t1 f1 d1 = m.predict_magnitudes pp t2 f2 d2) ∧
    (∀ (t1 : Option (List ℝ)) (f1 : Option (List String)) (d1 : Option ℝ),
      m.predict_magnitudes pp t1 f1 d1 =
        m.magnitudes_from pp obs.times obs.filters obs.distance obs.filters_unique) := by
  have key : ∀ (t1 : Option (List ℝ)) (f1 : Option (List String)) (d1 : Option ℝ),
      m.predict_magnitudes pp t1 f1 d1 =
        m.magnitudes_from pp obs.times obs.filters obs.distance obs.filters_unique := by
    intro t1 f1 d1
    simp [Model.predict_magnitudes, hobs]
  exact ⟨fun t1 t2 f1 f2 d1 d2 => (key t1 f1 d1).trans (key t2 f2 d2).symm, key⟩

/-- C2: every valid `predict_magnitudes` call — through a bound
`Observations` or through explicit arguments — returns an array of the same
length as the times/filters arrays, whose entry at each index `j` is the
magnitude computed from the decoded spectrum for `ts[j]` and the filter
curve named by `fs[j]` alone, independent of the filter grouping order. -/
theorem C2_output_alignment (m : Model) (lib : List (String × Ksm.Filter))
    (pp ts : List ℝ) (fs : List String) (d : ℝ) (out : List ℝ)
    (hlib : m.filter_library = some lib)
    (hlen : fs.length = ts.length)
    (hbranch :
      (∃ obs : Observations, m.observations = some obs ∧ obs.times = ts ∧
        obs.filters = fs ∧ obs.distance = d ∧ (∀ f ∈ fs, f ∈ obs.filters_unique) ∧
        m.predict_magnitudes pp none none none = .ok out) ∨
      (m.observations = none ∧
        m.predict_magnitudes pp (some ts) (some fs) (some d) = .ok out)) :
    out.length = ts.length ∧
    ∀ (j : ℕ) (t : ℝ) (f : String), ts[j]? = some t → fs[j]? = some f →
      out[j]? = (lib.lookup f).map (fun ff =>
        mag_of_spectrum m ff
          ((m.decode_one pp t).map (fun x => x / (4 * Real.pi * d ^ 2)))) := by
  rcases hbranch with ⟨obs, hobs, hts, hfs, hd, hcov, hok⟩ | ⟨hobs, hok⟩
  · have hok' : m.magnitudes_from pp ts fs d obs.filters_unique = .ok out := by
      simp only [Model.predict_magnitudes, hobs] at hok
      rw [hts, hfs, hd] at hok
      exact hok
    exact magnitudes_from_spec m lib pp ts fs d obs.filters_unique out hlib hcov hlen hok'
  · have hok' : m.magnitudes_from pp ts fs d (np_unique fs) = .ok out := by
      simpa only [Model.predict_magnitudes, hobs] using hok
    exact magnitudes_from_spec m lib pp ts fs d (np_unique fs) out hlib
      (fun f hf => mem_np_unique_str.2 hf) hlen hok'

/-! ### Concrete instances for witnesses and counterexamples -/

/-- A concrete filter curve whose photometric integral is constantly 1 and
whose zero point is 0. -/
noncomputable def flat_filter : Ksm.Filter := ⟨fun _ _ => 1, 0⟩

/-- A concrete `Observations` object with no data points. -/
noncomputable def obs_empty : Observations := ⟨[], [], [], [], [], [], 1⟩

/-- A concrete model: unit bounds on every dimension, one loaded filter
named "g", no bound observations. -/
noncomputable def base_model : Model :=
  ⟨5, [1000], fun _ => (0, 1), [false, false], (0, 0, 1),
    List.replicate 10 [], rfl, fun _ => [1], some [("g", flat_filter)], none⟩

/-- `base_model` with the empty observation set bound. -/
noncomputable def obs_model : Model :=
  ⟨5, [1000], fun _ => (0, 1), [false, false], (0, 0, 1),
    List.replicate 10 [], rfl, fun _ => [1], some [("g", flat_filter)], some obs_empty⟩

/-- `base_model` constructed without a filter directory: the
`filter_library` attribute was never set. -/
noncomputable def nolib_model : Model :=
  ⟨5, [1000], fun _ => (0, 1), [false, false], (0, 0, 1),
    List.replicate 10 [], rfl, fun _ => [1], none, none⟩

/-- A concrete one-point `Observations` object using the filter "g". -/
noncomputable def obs_one : Observations := ⟨[2], ["g"], [20], [1], ["g"], [0], 1⟩

/-- A model constructed without a filter directory but with the one-point
observation set bound. -/
noncomputable def nolib_obs_model : Model :=
  ⟨5, [1000], fun _ => (0, 1), [false, false], (0, 0, 1),
    List.replicate 10 [], rfl, fun _ => [1], none, some obs_one⟩

/-- C4 counterexample: the claim says a model constructed without a filter
directory fails with a `MissingFilterLibrary` error "rather than crashing
with an unrelated attribute error"; in the source `predict_magnitudes` never
checks `filters_loaded` and the failure is exactly the `AttributeError` for
the unset `filter_library` attribute. -/
theorem C4_counterexample :
    nolib_model.predict_magnitudes [0] (some [0]) (some ["g"]) (some 1) =
      .error (.attributeError "filter_library") := by
  have hu : np_unique ["g"] = ["g"] := by simp [np_unique]
  show nolib_model.magnitudes_from [0] [0] ["g"] 1 (np_unique ["g"]) =
    .error (.attributeError "filter_library")
  rw [hu]
  rfl

/-- C4 amended: constructed without a filter directory, `filters_loaded` is
false, and any `predict_magnitudes` call that processes at least one filter
— whether through explicit arguments or through a bound `Observations`
object — fails with the `AttributeError` for the unset `filter_library`
attribute (not with a dedicated missing-library error, which the source
does not have); a call whose filter list is empty does not fail at all. -/
theorem C4_no_filter_library (m : Model) (pp ts : List ℝ) (fs : List String) (d : ℝ)
    (hnl : m.filter_library = none) :
    m.filters_loaded = false ∧
    (m.observations = none → fs ≠ [] →
      m.predict_magnitudes pp (some ts) (some fs) (some d) =
        .error (.attributeError "filter_library")) ∧
    (∀ obs : Observations, m.observations = some obs → obs.filters_unique ≠ [] →
      ∀ (t : Option (List ℝ)) (f : Option (List String)) (dd : Option ℝ),
        m.predict_magnitudes pp t f dd = .error (.attributeError "filter_library")) ∧
    (m.observations = none →
      ∀ e : PyError,
        m.predict_magnitudes pp (some ts) (some []) (some d) ≠ .error e) ∧
    (∀ obs : Observations, m.observations = some obs → obs.filters_unique = [] →
      ∀ (t : Option (List ℝ)) (f : Option (List String)) (dd : Option ℝ) (e : PyError),
        m.predict_magnitudes pp t f dd ≠ .error e) := by
  refine ⟨?_, ?_, ?_, ?_, ?_⟩
  · rw [Model.filters_loaded, hnl]
    rfl
  · intro hobs hfs
    rcases hu : np_unique fs with _ | ⟨f0, rest⟩
    · exact absurd hu (np_unique_ne_nil hfs)
    · have hpm : m.predict_magnitudes pp (some ts) (some fs) (some d) =
          m.magnitudes_from pp ts fs d (np_unique fs) := by
        simp [Model.predict_magnitudes, hobs]
      rw [hpm]
      exact magnitudes_from_no_lib m hnl pp ts fs d f0 rest _ hu
  · intro obs hobs hfune t f dd
    have hpm : m.predict_magnitudes pp t f dd =
        m.magnitudes_from pp obs.times obs.filters obs.distance obs.filters_unique := by
      simp [Model.predict_magnitudes, hobs]
    rw [hpm]
    rcases hu : obs.filters_unique with _ | ⟨f0, rest⟩
    · exact absurd hu hfune
    · exact magnitudes_from_no_lib m hnl pp obs.times obs.filters obs.distance f0 rest
        (f0 :: rest) rfl
  · intro hobs e h
    have hu : np_unique ([] : List String) = [] := by simp [np_unique]
    have hpm : m.predict_magnitudes pp (some ts) (some []) (some d) =
        m.magnitudes_from pp ts [] d (np_unique []) := by
      simp [Model.predict_magnitudes, hobs]
    rw [hpm, magnitudes_from_nil_fus m pp ts [] d _ hu] at h
    cases h
  · intro obs hobs hfu t f dd e h
    have hpm : m.predict_magnitudes pp t f dd =
        m.magnitudes_from pp obs.times obs.filters obs.distance obs.filters_unique := by
      simp [Model.predict_magnitudes, hobs]
    rw [hpm, magnitudes_from_nil_fus m pp obs.times obs.filters obs.distance _ hfu] at h
    cases h

/-! ### Witnesses -/

/-- Witness for C1 at the empty observation set: no upper limit fires and
the Gaussian log-likelihood of zero residuals is `-0.5 * 0 = 0`. -/
theorem C1_upper_limit_veto_witness :
    obs_model.compute_likelihood_dynesty [] = .ok ((0 : ℝ) : EReal) := by
  have h := (C1_upper_limit_veto obs_model obs_empty [] [] rfl rfl).2
    (by rintro ⟨i, hi, -⟩; exact List.not_mem_nil i hi)
  rw [h]
  norm_num

/-- Witness for C2 on a one-point call: the single output magnitude is the
one computed from its own time's decoded spectrum and its own filter. -/
theorem C2_output_alignment_witness :
    ([(-2.5 * Real.logb 10 1 - 0 : ℝ)])[0]? =
      (List.lookup "g" [("g", flat_filter)]).map (fun ff =>
        mag_of_spectrum base_model ff
          ((base_model.decode_one [0] 2).map (fun x => x / (4 * Real.pi * 1 ^ 2)))) := by
  have hok : base_model.predict_magnitudes [0] (some [2]) (some ["g"]) (some 1) =
      .ok [(-2.5 * Real.logb 10 1 - 0 : ℝ)] := by
    have hu : np_unique ["g"] = ["g"] := by simp [np_unique]
    show base_model.magnitudes_from [0] [2] ["g"] 1 (np_unique ["g"]) = _
    rw [hu]
    rfl
  exact (C2_output_alignment base_model [("g", flat_filter)] [0] [2] ["g"] 1
    [(-2.5 * Real.logb 10 1 - 0 : ℝ)] rfl rfl (Or.inr ⟨rfl, hok⟩)).2 0 2 "g" rfl rfl

/-- Witness for C3: the missing-inputs error fires with no sources and does
not fire with explicit times supplied. -/
theorem C3_missing_inputs_witness :
    base_model.predict_magnitudes [] none none none =
      .error (.valueError
        "Neither Observations object nor times post merger to predict at specified.") ∧
    base_model.predict_magnitudes [] (some []) (some []) (some 1) ≠
      .error (.valueError
        "Neither Observations object nor times post merger to predict at specified.") := by
  constructor
  · exact (C3_missing_inputs base_model []).1 rfl none none
  · exact (C3_missing_inputs base_model []).2 (some []) (some []) (some 1) _
      (Or.inr (by simp))

/-- Witness for the amended C4 at concrete libraryless models: the explicit
branch and the bound-observations branch both crash with the attribute
error, and the empty-filters call does not fail. -/
theorem C4_no_filter_library_witness :
    nolib_model.filters_loaded = false ∧
    nolib_model.predict_magnitudes [0] (some [0]) (some ["r"]) (some 1) =
      .error (.attributeError "filter_library") ∧
    nolib_obs_model.predict_magnitudes [0] none none none =
      .error (.attributeError "filter_library") ∧
    (∀ e : PyError,
      nolib_model.predict_magnitudes [0] (some [0]) (some []) (some 1) ≠ .error e) := by
  have h1 := C4_no_filter_library nolib_model [0] [0] ["r"] 1 rfl
  have h2 := C4_no_filter_library nolib_obs_model [0] [0] ["r"] 1 rfl
  refine ⟨h1.1, h1.2.1 rfl (by simp), ?_, h1.2.2.2.1 rfl⟩
  exact h2.2.2.1 obs_one rfl (by simp [obs_one]) none none none

/-- Witness for C6 at the midpoint of a unit-bounds linear dimension. -/
theorem C6_normalizer_witness :
    (base_model.physical_inputs_to_nn [[(1 / 2 : ℝ)]])[0]?.bind (fun nrow => nrow[0]?) =
      some (base_model.nn_transform 0 false (1 / 2)) :=
  (C6_normalizer base_model [[(1 / 2 : ℝ)]] 0 0 [(1 / 2 : ℝ)] (1 / 2) false rfl rfl rfl).1

/-- Witness for C8: the unit-cube origin maps to the upper bound `hi_0`. -/
theorem C8_prior_transform_witness :
    (base_model.prior_transform_dynesty [0])[0]? = some (base_model.x_transforms 0).2 :=
  (C8_prior_transform base_model [0] 0 0 rfl).2.1 rfl

/-- Witness for C9: a parameter outside its bounds short-circuits the
log-probability to `-inf` (here even though no observations are bound, so
the likelihood itself could not have been evaluated). -/
theorem C9_log_probability_composition_witness :
    base_model.log_probability_emcee [5] = .ok ⊥ := by
  have hprior : base_model.log_prior_emcee [5] = ⊥ := by
    show log_prior_aux base_model [(0, (5 : ℝ))] = ⊥
    simp only [log_prior_aux]
    rw [if_neg]
    norm_num [base_model]
  exact (C9_log_probability_composition base_model [5]).1 hprior

/-- Witness for C10: with observations bound, two entirely different
explicit argument tuples give the same prediction. -/
theorem C10_bound_observations_win_witness :
    obs_model.predict_magnitudes [] (some [9]) (some ["z"]) (some 7) =
      obs_model.predict_magnitudes [] none none none :=
  (C10_bound_observations_win obs_model obs_empty [] rfl).1
    (some [9]) none (some ["z"]) none (some 7) none

end Ksm
